import Mathlib

/-!
Shallow embedding of the appearance/theme resolution and CSS materialization
pipeline of `src/packages/js/src/ui/context/AppearanceContext.tsx`.

JavaScript objects with optional keys are embedded as functions into `Option`:
a key is "present" when the function returns `some`.  Object spread
`{...a, ...b}` becomes a right-biased merge.  The DOM document is embedded as a
list of nodes carrying an id and a text content.  The reactive effects of the
provider become an explicit step function on a provider state.
-/

namespace Novu

/-- The closed enumeration of design tokens, from the `Variables` type of
`AppearanceContext.tsx` (lines 148-158). -/
inductive VarToken
  | colorBackground
  | colorForeground
  | colorPrimary
  | colorPrimaryForeground
  | colorSecondary
  | colorSecondaryForeground
  | colorNeutral
  | fontSize
  | borderRadius
deriving DecidableEq

/-- The tokens in declaration order, used to iterate a `Variables` object. -/
def varTokens : List VarToken :=
  [.colorBackground, .colorForeground, .colorPrimary, .colorPrimaryForeground,
   .colorSecondary, .colorSecondaryForeground, .colorNeutral, .fontSize, .borderRadius]

/-- CSS custom-property name of a token (used only inside generated rule text). -/
def VarToken.cssName : VarToken → String
  | .colorBackground => "color-background"
  | .colorForeground => "color-foreground"
  | .colorPrimary => "color-primary"
  | .colorPrimaryForeground => "color-primary-foreground"
  | .colorSecondary => "color-secondary"
  | .colorSecondaryForeground => "color-secondary-foreground"
  | .colorNeutral => "color-neutral"
  | .fontSize => "font-size"
  | .borderRadius => "border-radius"

/-- A `Variables` object: each token either absent (`none`) or bound to a
string value, embedding the TS record with optional fields. -/
abbrev Variables := VarToken → Option String

/-- The empty `Variables` object `{}`. -/
def emptyVariables : Variables := fun _ => none

/-- Object spread `{...a, ...b}` on `Variables`: keys present in `b` win. -/
def spreadVars (a b : Variables) : Variables := fun t =>
  match b t with
  | some v => some v
  | none => a t

/-- `ElementStyles = string | CSSProperties` (lines 15-19): either a pre-formed
class-name string or a raw CSS-properties mapping. -/
inductive ElementStyles
  | str (s : String)
  | styles (ps : List (String × String))
deriving DecidableEq

/-- An `Elements` object: a partial map from appearance keys to styles,
embedding `Partial<Record<AppearanceKey, ElementStyles>>`. -/
abbrev Elements := String → Option ElementStyles

/-- The empty `Elements` object `{}`. -/
def emptyElements : Elements := fun _ => none

/-- Object spread `{...a, ...b}` on `Elements`: keys present in `b` win. -/
def spreadElems (a b : Elements) : Elements := fun k =>
  match b k with
  | some v => some v
  | none => a k

/-- `Theme = Pick<AppearanceContextType, 'elements' | 'variables'>` (line 172);
an absent field is embedded as the empty object, matching the `|| {}`
normalizations at the use sites. -/
structure Theme where
  «variables» : Variables := emptyVariables
  elements : Elements := emptyElements

/-- The `baseTheme?: Theme | Theme[]` field of `Appearance` (line 173):
absent, a single theme, or an array of themes. -/
inductive BaseThemeProp
  | missing
  | single (t : Theme)
  | arr (ts : List Theme)

/-- `Appearance = Theme & { baseTheme?: Theme | Theme[] }` (line 173). -/
structure Appearance extends Theme where
  baseTheme : BaseThemeProp := .missing

/-- The `themes` memo (lines 184-186): if `baseTheme` is an array use it,
otherwise wrap `baseTheme || {}` in a one-element array.  The provider's
`appearance` prop is optional, hence the `Option`. -/
def themesOf (app : Option Appearance) : List Theme :=
  match app with
  | none => [{}]
  | some a =>
    match a.baseTheme with
    | .missing => [{}]
    | .single t => [t]
    | .arr ts => ts

/-- `props.appearance?.variables || {}` (line 224). -/
def appearanceVariables (app : Option Appearance) : Variables :=
  match app with
  | none => emptyVariables
  | some a => a.«variables»

/-- `props.appearance?.elements || {}` (lines 238 and 263). -/
def appearanceElements (app : Option Appearance) : Elements :=
  match app with
  | none => emptyElements
  | some a => a.elements

/-- The `baseVariables` object of the variables effect (lines 218-221):
`{...defaultVariables, ...themes().reduce((acc, obj) => ({...acc, ...(obj.variables || {})}), {})}`.
The built-in `defaultVariables` constant lives outside the reviewed sources, so
it is a parameter here. -/
def baseVariables (defaults : Variables) (app : Option Appearance) : Variables :=
  spreadVars defaults
    ((themesOf app).foldl (fun acc t => spreadVars acc t.«variables») emptyVariables)

/-- The object passed to `parseVariables` (line 224):
`{...baseVariables, ...(props.appearance?.variables || {})}`. -/
def effectiveVariables (defaults : Variables) (app : Option Appearance) : Variables :=
  spreadVars (baseVariables defaults app) (appearanceVariables app)

/-- The `baseElements` object of the elements effect (line 236) spread with the
top-level elements (line 238): the object passed to `parseElements`. -/
def effectiveElements (app : Option Appearance) : Elements :=
  spreadElems
    ((themesOf app).foldl (fun acc t => spreadElems acc t.elements) emptyElements)
    (appearanceElements app)

/-- The value from the last base theme in array order that defines a token,
if any: the property formulation used by the variable-precedence claim. -/
def lastThemeVar : List Theme → VarToken → Option String
  | [], _ => none
  | t :: ts, tok =>
    match lastThemeVar ts tok with
    | some v => some v
    | none => t.«variables» tok

/-- Modelled from the spec: `parseVariables` lives in
`src/packages/js/src/ui/helpers`, which is not among the reviewed sources.
Per the spec's CSS Materializer contract (variables branch), each present
token yields one custom-property declaration scoped under a selector derived
from the id; absent tokens are skipped; the order is deterministic (token
declaration order). -/
def parseVariables (vs : Variables) (id : String) : List String :=
  varTokens.filterMap fun t =>
    match vs t with
    | none => none
    | some v => some ("#" ++ id ++ " \x7b --nv-" ++ t.cssName ++ ": " ++ v ++ "; \x7d")

/-- The closed `appearanceKeys` enumeration (lines 26-146). -/
def appearanceKeys : List String :=
  ["button",
   "popoverContent", "popoverTrigger",
   "dropdownContent", "dropdownTrigger", "dropdownItem", "dropdownItemLabel",
   "dropdownItemLabelContainer", "dropdownItemLeftIcon", "dropdownItemRightIcon",
   "tooltipContent", "tooltipTrigger",
   "back__button",
   "skeletonText", "skeletonAvatar", "tabsRoot", "tabsList", "tabsContent",
   "tabsTrigger", "dots",
   "root", "bellIcon", "bellContainer", "bellDot", "preferences__button",
   "preferencesContainer", "inboxHeader", "loading",
   "inbox__popoverTrigger", "inbox__popoverContent",
   "notificationList", "notificationListEmptyNoticeContainer",
   "notificationListEmptyNotice", "notificationListEmptyNoticeIcon",
   "notification", "notificationDot", "notificationSubject", "notificationBody",
   "notificationBodyContainer", "notificationImage", "notificationDate",
   "notificationDefaultActions", "notificationCustomActions",
   "notificationPrimaryAction__button", "notificationSecondaryAction__button",
   "notificationRead__button", "notificationUnread__button",
   "notificationArchive__button", "notificationUnarchive__button",
   "notificationsTabs__tabsRoot", "notificationsTabs__tabsList",
   "notificationsTabs__tabsContent", "notificationsTabs__tabsTrigger",
   "notificationsTabsTriggerLabel", "notificationsTabsTriggerCount",
   "inboxStatus__title", "inboxStatus__dropdownTrigger",
   "inboxStatus__dropdownContent", "inboxStatus__dropdownItem",
   "inboxStatus__dropdownItemLabel", "inboxStatus__dropdownItemLabelContainer",
   "inboxStatus__dropdownItemLeftIcon", "inboxStatus__dropdownItemRightIcon",
   "moreActionsContainer", "moreActions__dropdownTrigger",
   "moreActions__dropdownContent", "moreActions__dropdownItem",
   "moreActions__dropdownItemLabel", "moreActions__dropdownItemLeftIcon",
   "moreTabs__button", "moreTabs__dots", "moreTabs__dropdownTrigger",
   "moreTabs__dropdownContent", "moreTabs__dropdownItem",
   "moreTabs__dropdownItemLabel", "moreTabs__dropdownItemRightIcon",
   "workflowContainer", "workflowLabel", "workflowLabelContainer",
   "channelContainer", "channelsContainer", "channelLabel",
   "channelLabelContainer", "channelDescription", "channelSwitchContainer",
   "channelSwitch", "channelSwitchThumb",
   "preferencesHeader", "preferencesHeader__back__button",
   "preferencesHeader__title",
   "preferencesLoadingContainer"]

/-- Modelled from the spec: the collision-resistant generated class name for a
key.  The spec leaves the scheme open ("hash-based vs counter-based ... no
externally visible contract beyond uniqueness and determinism"), so the model
uses a deterministic injective name per key. -/
def genClassName (k : String) : String := "novu-css-" ++ k

/-- Split a character list on every occurrence of two consecutive
underscores, like the JS `split("__")`. -/
def splitMarker : List Char → List (List Char)
  | [] => [[]]
  | '_' :: '_' :: rest => [] :: splitMarker rest
  | c :: rest =>
    match splitMarker rest with
    | [] => [[c]]
    | p :: ps => (c :: p) :: ps

/-- The base key of a compound/extension key: the suffix after the last
double-underscore marker, per the extension-key comment (lines 21-25) and the
spec ("the suffix after the last conceptual boundary names a base key");
`none` for a non-compound key. -/
def baseKeyOf (k : String) : Option String :=
  let parts := (splitMarker k.data).map fun cs => String.mk cs
  if parts.length ≤ 1 then none else parts.getLast?

/-- Modelled from the spec: the class contributed by one key on its own — the
literal string for a string value, the generated class for a properties
mapping. -/
def ownClass (k : String) (v : ElementStyles) : String :=
  match v with
  | .str s => s
  | .styles _ => genClassName k

/-- Modelled from the spec: the CSS rule text synthesized for a key with a
properties mapping; a plain-string value generates no rule text. -/
def cssRuleOf (k : String) (v : ElementStyles) : String :=
  match v with
  | .str _ => ""
  | .styles ps =>
    "." ++ genClassName k ++ " \x7b " ++
      String.intercalate " " (ps.map fun p => p.1 ++ ": " ++ p.2 ++ ";") ++ " \x7d"

/-- One entry of the data returned by `parseElements`, consumed at
lines 241-247: a key, its consumer-visible class string, and its rule text. -/
structure ElementStyleData where
  key : String
  className : String
  rule : String
deriving DecidableEq

/-- Modelled from the spec: the consumer-visible class string for a key.  For
a compound key whose base key is present in the effective map it is the base
key's class followed by the compound key's own class; otherwise just the own
class. -/
def consumerClass (em : Elements) (k : String) (v : ElementStyles) : String :=
  match baseKeyOf k with
  | none => ownClass k v
  | some b =>
    match em b with
    | none => ownClass k v
    | some bv => ownClass b bv ++ " " ++ ownClass k v

/-- Modelled from the spec: the entry `parseElements` produces for one key, if
the key is present in the effective map. -/
def entryOf (em : Elements) (k : String) : Option ElementStyleData :=
  match em k with
  | none => none
  | some v => some ⟨k, consumerClass em k v, cssRuleOf k v⟩

/-- Modelled from the spec: `parseElements` from
`src/packages/js/src/ui/helpers` (not among the reviewed sources).  It walks
the closed `appearanceKeys` enumeration in order (the enumeration is fixed at
build time, so the order is deterministic) and emits one entry per key present
in the effective map. -/
def parseElements (em : Elements) : List ElementStyleData :=
  appearanceKeys.filterMap (entryOf em)

/-- The `appearanceKeyToCssInJsClass` store: a string-keyed record of class
strings (line 179). -/
abbrev Registry := String → Option String

/-- The initial empty registry (line 180). -/
def emptyRegistry : Registry := fun _ => none

/-- Record update `acc[key] = value` on a `Registry`. -/
def registrySet (r : Registry) (k v : String) : Registry := fun q =>
  if q = k then some v else r q

/-- The reduce at lines 241-245: fold the parsed entries into a record,
`acc[item.key] = item.className`. -/
def registryFromData (ds : List ElementStyleData) : Registry :=
  ds.foldl (fun acc d => registrySet acc d.key d.className) emptyRegistry

/-- The `setStore` updater at lines 239-246:
`{...obj, ...elementsStyleData.reduce(...)}` — the previous registry merged
additively with the freshly parsed entries. -/
def storeUpdate (old : Registry) (em : Elements) : Registry := fun q =>
  match registryFromData (parseElements em) q with
  | some v => some v
  | none => old q

/-- The element rules signal value (line 247):
`elementsStyleData.map((el) => el.rule)`. -/
def elementRulesOf (em : Elements) : List String :=
  (parseElements em).map (·.rule)

/-- The concatenated CSS text written to the stylesheet node (line 257):
`[...variableRules(), ...elementRules()].join(' ')`, with the two rule lists
computed by the variables effect (lines 211-226) and the elements effect
(lines 229-248) from the same inputs. -/
def cssOutput (defaults : Variables) (app : Option Appearance) (id : String) : String :=
  String.intercalate " "
    (parseVariables (effectiveVariables defaults app) id ++
      elementRulesOf (effectiveElements app))

/-- A DOM element as the pipeline sees it: an id and a text content
(`innerHTML`). -/
structure DomNode where
  id : String
  content : String
deriving DecidableEq

/-- The document: the list of nodes reachable by id lookup. -/
abbrev Doc := List DomNode

/-- `document.getElementById(id)`: the first node with the given id. -/
def getElementById : Doc → String → Option DomNode
  | [], _ => none
  | n :: rest, i => if n.id = i then some n else getElementById rest i

/-- How many nodes of the document carry the given id. -/
def countById : Doc → String → Nat
  | [], _ => 0
  | n :: rest, i => (if n.id = i then 1 else 0) + countById rest i

/-- `element.remove()` applied to the result of `getElementById`: drop the
first node with the given id, if any. -/
def removeById : Doc → String → Doc
  | [], _ => []
  | n :: rest, i => if n.id = i then rest else n :: removeById rest i

/-- Assignment to `innerHTML` of the node found by id: replace the first
matching node's content. -/
def setContentById : Doc → String → String → Doc
  | [], _, _ => []
  | n :: rest, i, c =>
    if n.id = i then { n with content := c } :: rest else n :: setContentById rest i c

/-- The content of the node found by id, if the node exists. -/
def getContentById (doc : Doc) (i : String) : Option String :=
  (getElementById doc i).map (·.content)

/-- The `onMount` body (lines 188-200): adopt an existing node with the
caller's id, else create a fresh style node with that id and append it.
Returns the new document and whether this instance created the node (the
cleanup at lines 202-207 is registered only in the created branch). -/
def mountDoc (doc : Doc) (i : String) : Doc × Bool :=
  match getElementById doc i with
  | some _ => (doc, false)
  | none => (doc ++ [⟨i, ""⟩], true)

/-- The `onCleanup` body (lines 202-207), registered only when this instance
created the node: look the id up and remove the node when found; an instance
that adopted registers no cleanup, so its teardown leaves the document
unchanged. -/
def cleanupDoc (doc : Doc) (i : String) (created : Bool) : Doc :=
  if created then
    match getElementById doc i with
    | some _ => removeById doc i
    | none => doc
  else doc

/-- The provider's props: the (modelled) built-in defaults, the optional
`appearance` prop, and the caller-supplied `id` prop. -/
structure Inputs where
  defaults : Variables
  appearance : Option Appearance
  id : String

/-- The reactive state of one provider instance: the document, the
`styleElement` signal (holding the attached node's id once mounted), the two
rule signals, the class-registry store, and whether this instance created the
node. -/
structure PState where
  doc : Doc
  styleEl : Option String
  varRules : List String
  elRules : List String
  registry : Registry
  created : Bool

/-- The state before mount: `styleElement` is `null`, the rule signals are
empty, the store is empty (lines 178-183). -/
def initState (doc : Doc) : PState :=
  { doc := doc, styleEl := none, varRules := [], elRules := [],
    registry := emptyRegistry, created := false }

/-- The reactive steps the framework can run: the mount hook and the three
effects (variables, elements, rule-writing). -/
inductive Ev
  | mount
  | varsEffect
  | elemsEffect
  | writeEffect
deriving DecidableEq

/-- One reactive step of the provider (lines 188-258).  Each effect returns
early (leaving all state unchanged) while the `styleElement` signal is still
`null`; the write effect overwrites the node's content with the joined
variable rules followed by element rules. -/
def step (inp : Inputs) (s : PState) : Ev → PState
  | .mount =>
    let (d, c) := mountDoc s.doc inp.id
    { s with doc := d, styleEl := some inp.id, created := c }
  | .varsEffect =>
    match s.styleEl with
    | none => s
    | some _ =>
      { s with varRules := parseVariables (effectiveVariables inp.defaults inp.appearance) inp.id }
  | .elemsEffect =>
    match s.styleEl with
    | none => s
    | some _ =>
      { s with registry := storeUpdate s.registry (effectiveElements inp.appearance),
               elRules := elementRulesOf (effectiveElements inp.appearance) }
  | .writeEffect =>
    match s.styleEl with
    | none => s
    | some i =>
      { s with doc := setContentById s.doc i (String.intercalate " " (s.varRules ++ s.elRules)) }

/-- Run a sequence of reactive steps. -/
def runEvents (inp : Inputs) (s : PState) (evs : List Ev) : PState :=
  evs.foldl (step inp) s

/-- The `AppearanceContextType` (lines 163-168); the provider's value omits
`variables`, which stays absent (lines 260-266). -/
structure AppearanceContextType where
  «variables» : Variables := emptyVariables
  elements : Elements := emptyElements
  appearanceKeyToCssInJsClass : Registry
  id : String

/-- The value handed to `AppearanceContext.Provider` (lines 260-266):
`elements` is `props.appearance?.elements || {}`, plus the store's registry
and the `id` prop. -/
def providerContextValue (app : Option Appearance) (registry : Registry) (id : String) :
    AppearanceContextType :=
  { elements := appearanceElements app,
    appearanceKeyToCssInJsClass := registry,
    id := id }

/-- `useAppearance` (lines 273-280): throw when there is no enclosing
provider, otherwise return the context value. -/
def useAppearance (ctx : Option AppearanceContextType) : Except String AppearanceContextType :=
  match ctx with
  | none => Except.error "useAppearance must be used within an AppearanceProvider"
  | some c => Except.ok c

/-- Example defaults of the variable-precedence claim: `{colorPrimary:"#000"}`. -/
def defaultsEx1 : Variables := fun t =>
  match t with
  | .colorPrimary => some "#000"
  | _ => none

/-- Example base theme of the variable-precedence claim:
`{variables:{colorPrimary:"#111", fontSize:"14px"}}`. -/
def baseThemeEx1 : Theme :=
  { «variables» := fun t =>
      match t with
      | .colorPrimary => some "#111"
      | .fontSize => some "14px"
      | _ => none }

/-- Example top-level appearance of the variable-precedence claim:
`{variables:{fontSize:"16px"}, baseTheme: <baseThemeEx1>}`. -/
def appEx1 : Appearance :=
  { «variables» := fun t =>
      match t with
      | .fontSize => some "16px"
      | _ => none,
    baseTheme := .single baseThemeEx1 }

/-- The effective variables the claim's example expects:
`{colorPrimary:"#111", fontSize:"16px"}`. -/
def expectedEx1 : Variables := fun t =>
  match t with
  | .colorPrimary => some "#111"
  | .fontSize => some "16px"
  | _ => none

/-- Example effective element map of the compound-key claim:
`{button: {color:"red"}, "back__button": {padding:"4px"}}`. -/
def elementsEx2 : Elements := fun k =>
  if k = "button" then some (.styles [("color", "red")])
  else if k = "back__button" then some (.styles [("padding", "4px")])
  else none

/-- First effective element map of the registry-subset counterexample:
`{button: {color:"red"}}`. -/
def elementsEx3a : Elements := fun k =>
  if k = "button" then some (.styles [("color", "red")]) else none

/-- Second effective element map of the registry-subset counterexample: the
empty map (the `button` entry was removed by the caller). -/
def elementsEx3b : Elements := fun _ => none

/-- Example appearance of the exposed-elements claim: the top level supplies
no element styles, while the base theme styles `button`. -/
def appEx10 : Appearance :=
  { baseTheme := .single { elements := fun k =>
      if k = "button" then some (.styles [("color", "red")]) else none } }

/-- `spreadVars` applied to a token, in equational form. -/
theorem spreadVars_apply (a b : Variables) (t : VarToken) :
    spreadVars a b t =
      match b t with
      | some v => some v
      | none => a t := rfl

/-- Folding the spread of theme variables agrees with "last theme in array
order that defines the token wins, else the accumulator". -/
theorem foldl_spreadVars (ts : List Theme) (acc : Variables) (tok : VarToken) :
    (ts.foldl (fun acc t => spreadVars acc t.«variables») acc) tok =
      match lastThemeVar ts tok with
      | some v => some v
      | none => acc tok := by
  induction ts generalizing acc with
  | nil => rfl
  | cons t ts ih =>
    show (ts.foldl _ (spreadVars acc t.«variables»)) tok = _
    rw [ih]
    show _ =
      match
        (match lastThemeVar ts tok with
         | some v => some v
         | none => t.«variables» tok) with
      | some v => some v
      | none => acc tok
    cases lastThemeVar ts tok with
    | some v => rfl
    | none => rw [spreadVars_apply]

/-- The `baseVariables` object resolves a token to the last defining base
theme, else the defaults. -/
theorem baseVariables_eq (defaults : Variables) (app : Option Appearance) (tok : VarToken) :
    baseVariables defaults app tok =
      match lastThemeVar (themesOf app) tok with
      | some v => some v
      | none => defaults tok := by
  show spreadVars defaults ((themesOf app).foldl _ emptyVariables) tok = _
  rw [spreadVars_apply, foldl_spreadVars]
  cases lastThemeVar (themesOf app) tok <;> rfl

/-- C1: the effective value of each variable token is the top-level override
when present, else the value from the last base theme in array order that
defines it, else the built-in default, else absent; and the spec's example
(defaults `{colorPrimary:"#000"}`, base theme
`{variables:{colorPrimary:"#111", fontSize:"14px"}}`, top-level
`{variables:{fontSize:"16px"}}`) yields effective variables
`{colorPrimary:"#111", fontSize:"16px"}`. -/
theorem variable_token_precedence :
    (∀ (defaults : Variables) (app : Option Appearance) (tok : VarToken),
      effectiveVariables defaults app tok =
        match appearanceVariables app tok with
        | some v => some v
        | none =>
          match lastThemeVar (themesOf app) tok with
          | some v => some v
          | none => defaults tok) ∧
    (∀ tok : VarToken, effectiveVariables defaultsEx1 (some appEx1) tok = expectedEx1 tok) := by
  constructor
  · intro defaults app tok
    show spreadVars (baseVariables defaults app) (appearanceVariables app) tok = _
    rw [spreadVars_apply, baseVariables_eq]
  · intro tok
    cases tok <;> rfl

/-- C4: the pipeline is deterministic — two runs on identical inputs produce
byte-identical concatenated CSS text. -/
theorem css_output_deterministic (d1 d2 : Variables) (a1 a2 : Option Appearance)
    (i1 i2 : String) (hd : d1 = d2) (ha : a1 = a2) (hi : i1 = i2) :
    cssOutput d1 a1 i1 = cssOutput d2 a2 i2 := by
  subst hd; subst ha; subst hi; rfl

/-- Witness for C4 at a concrete input. -/
theorem css_output_deterministic_witness :
    defaultsEx1 = defaultsEx1 ∧
    cssOutput defaultsEx1 (some appEx1) "novu-ui" = cssOutput defaultsEx1 (some appEx1) "novu-ui" :=
  ⟨rfl, css_output_deterministic defaultsEx1 defaultsEx1 (some appEx1) (some appEx1)
    "novu-ui" "novu-ui" rfl rfl rfl⟩

/-- C8: the consumer-facing accessor raises the missing-context error when no
provider is enclosing, and returns the context value when one is. -/
theorem use_appearance_requires_provider :
    useAppearance none =
      Except.error "useAppearance must be used within an AppearanceProvider" ∧
    ∀ c : AppearanceContextType, useAppearance (some c) = Except.ok c :=
  ⟨rfl, fun _ => rfl⟩

/-- C10: the `elements` value exposed through the context is exactly the
caller's top-level `appearance.elements` (empty when absent); base-theme
element styles participate in the effective map but never appear in the
exposed value. -/
theorem context_exposes_top_level_elements_only :
    (∀ (a : Appearance) (r : Registry) (i : String),
      (providerContextValue (some a) r i).elements = a.elements) ∧
    (∀ (r : Registry) (i : String),
      (providerContextValue none r i).elements = emptyElements) ∧
    effectiveElements (some appEx10) "button" = some (.styles [("color", "red")]) ∧
    (providerContextValue (some appEx10) emptyRegistry "novu-ui").elements "button" = none := by
  refine ⟨fun a r i => rfl, fun r i => rfl, ?_, rfl⟩
  rfl

/-- Id lookup fails exactly when no node carries the id. -/
theorem getElementById_eq_none_iff (doc : Doc) (i : String) :
    getElementById doc i = none ↔ countById doc i = 0 := by
  induction doc with
  | nil => simp [getElementById, countById]
  | cons n rest ih =>
    by_cases h : n.id = i <;> simp [getElementById, countById, h, ih]

/-- Appending documents adds the id counts. -/
theorem countById_append (d1 d2 : Doc) (i : String) :
    countById (d1 ++ d2) i = countById d1 i + countById d2 i := by
  induction d1 with
  | nil => simp [countById]
  | cons n rest ih =>
    simp [countById, ih, Nat.add_assoc]

/-- When the first document has no node with the id, lookup moves past it. -/
theorem getElementById_append_of_none (d1 d2 : Doc) (i : String)
    (h : getElementById d1 i = none) :
    getElementById (d1 ++ d2) i = getElementById d2 i := by
  induction d1 with
  | nil => rfl
  | cons n rest ih =>
    by_cases hn : n.id = i
    · simp [getElementById, hn] at h
    · simp [getElementById, hn] at h ⊢
      exact ih h

/-- Removing the first node with the id decrements the id count by one. -/
theorem countById_removeById (doc : Doc) (i : String) :
    countById (removeById doc i) i = countById doc i - 1 := by
  induction doc with
  | nil => rfl
  | cons n rest ih =>
    by_cases h : n.id = i
    · simp [removeById, countById, h]
    · simp [removeById, countById, h, ih]

/-- Shared shape lemma: mounting over a document without the id creates one
node with the id, reports creation, and a repeated mount adopts. -/
theorem mountDoc_absent_spec (doc : Doc) (i : String)
    (h : countById doc i = 0) :
    countById (mountDoc doc i).1 i = 1 ∧
    (mountDoc doc i).2 = true ∧
    mountDoc (mountDoc doc i).1 i = ((mountDoc doc i).1, false) := by
  have hid : getElementById doc i = none := (getElementById_eq_none_iff doc i).mpr h
  have hm : mountDoc doc i = (doc ++ [⟨i, ""⟩], true) := by
    unfold mountDoc
    rw [hid]
  rw [hm]
  refine ⟨?_, rfl, ?_⟩
  · rw [countById_append, h]
    simp [countById]
  · have hfind : getElementById (doc ++ [⟨i, ""⟩]) i = some ⟨i, ""⟩ := by
      rw [getElementById_append_of_none _ _ _ hid]
      simp [getElementById]
    unfold mountDoc
    rw [hfind]

/-- C5: mounting when no node with the caller's id exists creates exactly one
node with that id, and a second mount with the same id adopts the existing
node instead of creating a duplicate. -/
theorem mount_creates_exactly_one_node (doc : Doc) (i : String)
    (h : countById doc i = 0) :
    countById (mountDoc doc i).1 i = 1 ∧
    (mountDoc doc i).2 = true ∧
    mountDoc (mountDoc doc i).1 i = ((mountDoc doc i).1, false) :=
  mountDoc_absent_spec doc i h

/-- Witness for C5: mounting into an empty document. -/
theorem mount_creates_exactly_one_node_witness :
    countById [] "novu-ui" = 0 ∧
    (countById (mountDoc [] "novu-ui").1 "novu-ui" = 1 ∧
      (mountDoc [] "novu-ui").2 = true ∧
      mountDoc (mountDoc [] "novu-ui").1 "novu-ui" = ((mountDoc [] "novu-ui").1, false)) :=
  ⟨rfl, mount_creates_exactly_one_node [] "novu-ui" rfl⟩

/-- Mounting over a document without the id reports that it created the node. -/
theorem mountDoc_created_of_absent (d : Doc) (i : String)
    (h0 : countById d i = 0) : (mountDoc d i).2 = true := by
  unfold mountDoc
  rw [(getElementById_eq_none_iff d i).mpr h0]

/-- C6: teardown removes the node with the instance's id exactly when this
instance created it (an adopting instance leaves the document unchanged), the
removal is a safe no-op when the node is already gone, and after a
create-remove cycle a fresh mount creates a new node. -/
theorem teardown_removes_iff_created (doc : Doc) (i : String)
    (h : countById doc i ≤ 1) :
    cleanupDoc doc i false = doc ∧
    countById (cleanupDoc doc i true) i = 0 ∧
    (countById doc i = 0 → cleanupDoc doc i true = doc) ∧
    (countById doc i = 0 →
      countById (cleanupDoc (mountDoc doc i).1 i true) i = 0 ∧
      (mountDoc (cleanupDoc (mountDoc doc i).1 i true) i).2 = true) := by
  have hclean : ∀ d : Doc, countById d i ≤ 1 → countById (cleanupDoc d i true) i = 0 := by
    intro d hd
    unfold cleanupDoc
    cases hg : getElementById d i with
    | none =>
      simpa using (getElementById_eq_none_iff d i).mp hg
    | some n =>
      simp only [if_true]
      rw [countById_removeById]
      omega
  refine ⟨rfl, hclean doc h, ?_, ?_⟩
  · intro h0
    unfold cleanupDoc
    rw [(getElementById_eq_none_iff doc i).mpr h0]
    simp
  · intro h0
    have hmount := mountDoc_absent_spec doc i h0
    have hc : countById (cleanupDoc (mountDoc doc i).1 i true) i = 0 :=
      hclean (mountDoc doc i).1 (by rw [hmount.1])
    exact ⟨hc, mountDoc_created_of_absent _ i hc⟩

/-- Witness for C6: a create-remove cycle over the empty document. -/
theorem teardown_removes_iff_created_witness :
    countById [] "novu-ui" ≤ 1 ∧
    (cleanupDoc [] "novu-ui" false = [] ∧
      countById (cleanupDoc [] "novu-ui" true) "novu-ui" = 0 ∧
      (countById [] "novu-ui" = 0 → cleanupDoc [] "novu-ui" true = []) ∧
      (countById [] "novu-ui" = 0 →
        countById (cleanupDoc (mountDoc [] "novu-ui").1 "novu-ui" true) "novu-ui" = 0 ∧
        (mountDoc (cleanupDoc (mountDoc [] "novu-ui").1 "novu-ui" true) "novu-ui").2 = true)) :=
  ⟨by decide, teardown_removes_iff_created [] "novu-ui" (by decide)⟩

/-- Setting the content of the node with an id, when such a node exists,
makes its looked-up content exactly the written string. -/
theorem getContentById_setContentById (doc : Doc) (i c : String)
    (h : (getElementById doc i).isSome = true) :
    getContentById (setContentById doc i c) i = some c := by
  induction doc with
  | nil => simp [getElementById] at h
  | cons n rest ih =>
    by_cases hn : n.id = i
    · simp [setContentById, getContentById, getElementById, hn]
    · simp only [getElementById, hn, if_false] at h
      simp only [setContentById, hn, if_false]
      simp only [getContentById, getElementById, hn, if_false] at ih ⊢
      exact ih h

/-- C7: the rule-writing effect overwrites the stylesheet node's entire text
content with the concatenation of all current variable rules followed by all
current element rules, in that order, whatever the previous content was. -/
theorem write_effect_overwrites_content (inp : Inputs) (s : PState) (i : String)
    (h : s.styleEl = some i) (hn : (getElementById s.doc i).isSome = true) :
    getContentById (step inp s .writeEffect).doc i =
      some (String.intercalate " " (s.varRules ++ s.elRules)) := by
  show getContentById
      (match s.styleEl with
        | none => s
        | some j =>
          { s with doc := setContentById s.doc j (String.intercalate " " (s.varRules ++ s.elRules)) }).doc
      i = _
  rw [h]
  exact getContentById_setContentById s.doc i _ hn

/-- Witness for C7: overwriting a node that previously held other content. -/
theorem write_effect_overwrites_content_witness :
    ({ doc := [⟨"novu-ui", "stale"⟩], styleEl := some "novu-ui", varRules := ["va"],
       elRules := ["eb"], registry := emptyRegistry, created := true } : PState).styleEl =
        some "novu-ui" ∧
    getContentById
      (step ⟨emptyVariables, none, "novu-ui"⟩
        { doc := [⟨"novu-ui", "stale"⟩], styleEl := some "novu-ui", varRules := ["va"],
          elRules := ["eb"], registry := emptyRegistry, created := true } .writeEffect).doc
      "novu-ui" = some "va eb" :=
  ⟨rfl,
    write_effect_overwrites_content ⟨emptyVariables, none, "novu-ui"⟩
      { doc := [⟨"novu-ui", "stale"⟩], styleEl := some "novu-ui", varRules := ["va"],
        elRules := ["eb"], registry := emptyRegistry, created := true } "novu-ui" rfl rfl⟩

/-- C9: while the `styleElement` signal is still null no effect does anything
— a run containing no mount step leaves the provider state untouched — and
the mount step always yields a non-null node signal. -/
theorem no_write_before_mount (inp : Inputs) (d : Doc) (evs : List Ev)
    (h : Ev.mount ∉ evs) :
    runEvents inp (initState d) evs = initState d ∧
    ∀ s : PState, ((step inp s Ev.mount).styleEl).isSome = true := by
  refine ⟨?_, fun s => rfl⟩
  induction evs with
  | nil => rfl
  | cons e evs ih =>
    have he : e ≠ Ev.mount := fun hc => h (hc ▸ List.mem_cons_self e evs)
    have hstep : step inp (initState d) e = initState d := by
      cases e with
      | mount => exact absurd rfl he
      | varsEffect => rfl
      | elemsEffect => rfl
      | writeEffect => rfl
    show runEvents inp (step inp (initState d) e) evs = initState d
    rw [hstep]
    exact ih (fun hm => h (List.mem_cons_of_mem e hm))

/-- Witness for C9: running all three effects before any mount changes
nothing. -/
theorem no_write_before_mount_witness :
    Ev.mount ∉ [Ev.varsEffect, Ev.elemsEffect, Ev.writeEffect] ∧
    (runEvents ⟨emptyVariables, none, "novu-ui"⟩ (initState [])
        [Ev.varsEffect, Ev.elemsEffect, Ev.writeEffect] = initState [] ∧
      ∀ s : PState,
        ((step ⟨emptyVariables, none, "novu-ui"⟩ s Ev.mount).styleEl).isSome = true) :=
  ⟨by decide,
    no_write_before_mount ⟨emptyVariables, none, "novu-ui"⟩ []
      [Ev.varsEffect, Ev.elemsEffect, Ev.writeEffect] (by decide)⟩

/-- Folding record updates over entries, starting from an arbitrary record:
the last entry with the key wins, else the starting record is consulted. -/
theorem foldl_registrySet (ds : List ElementStyleData) (r0 : Registry) (q : String) :
    (ds.foldl (fun acc d => registrySet acc d.key d.className) r0) q =
      match registryFromData ds q with
      | some v => some v
      | none => r0 q := by
  induction ds generalizing r0 with
  | nil => rfl
  | cons d ds ih =>
    show (ds.foldl _ (registrySet r0 d.key d.className)) q = _
    rw [ih]
    show _ =
      match (ds.foldl (fun acc d => registrySet acc d.key d.className)
        (registrySet emptyRegistry d.key d.className)) q with
      | some v => some v
      | none => r0 q
    rw [ih]
    cases registryFromData ds q with
    | some v => rfl
    | none =>
      by_cases hq : q = d.key <;> simp [registrySet, emptyRegistry, hq]

/-- `registryFromData` on a cons, in lookup form. -/
theorem registryFromData_cons (d : ElementStyleData) (ds : List ElementStyleData)
    (q : String) :
    registryFromData (d :: ds) q =
      match registryFromData ds q with
      | some v => some v
      | none => if q = d.key then some d.className else none := by
  show (ds.foldl _ (registrySet emptyRegistry d.key d.className)) q = _
  rw [foldl_registrySet]
  cases registryFromData ds q with
  | some v => rfl
  | none =>
    by_cases hq : q = d.key <;> simp [registrySet, emptyRegistry, hq]

/-- Looking a key up in the registry built from `parseElements` run over an
arbitrary key list: the key resolves to its consumer-visible class exactly
when it is listed and present in the effective map. -/
theorem registry_filterMap_lookup (em : Elements) (l : List String) (q : String) :
    registryFromData (l.filterMap (entryOf em)) q =
      if q ∈ l then (em q).map (fun v => consumerClass em q v) else none := by
  induction l with
  | nil => simp [registryFromData, emptyRegistry]
  | cons k rest ih =>
    rw [List.filterMap_cons]
    cases hv : em k with
    | none =>
      have he : entryOf em k = none := by
        unfold entryOf
        rw [hv]
      rw [he, ih]
      by_cases hq : q = k
      · subst hq
        by_cases hmem : q ∈ rest <;> simp [hmem, hv]
      · simp [List.mem_cons, hq]
    | some v =>
      have he : entryOf em k = some ⟨k, consumerClass em k v, cssRuleOf k v⟩ := by
        unfold entryOf
        rw [hv]
      rw [he, registryFromData_cons, ih]
      by_cases hq : q = k
      · subst hq
        by_cases hmem : q ∈ rest <;> simp [hmem, hv]
      · by_cases hmem : q ∈ rest
        · cases hq2 : em q <;> simp [List.mem_cons, hq, hmem, hq2]
        · simp [List.mem_cons, hq, hmem]

/-- C2: for a compound key present in the effective map, the registry entry is
the base key's class followed by the compound key's own class when the base
key is present, and the compound key's own class alone when it is absent. -/
theorem compound_key_class_composition (em : Elements) (k b : String)
    (v : ElementStyles) (hk : k ∈ appearanceKeys) (hb : baseKeyOf k = some b)
    (hv : em k = some v) :
    (∀ bv, em b = some bv →
      registryFromData (parseElements em) k =
        some (ownClass b bv ++ " " ++ ownClass k v)) ∧
    (em b = none →
      registryFromData (parseElements em) k = some (ownClass k v)) := by
  have hreg : registryFromData (parseElements em) k =
      (em k).map (fun v => consumerClass em k v) := by
    unfold parseElements
    rw [registry_filterMap_lookup, if_pos hk]
  constructor
  · intro bv hbv
    rw [hreg, hv]
    simp [consumerClass, hb, hbv]
  · intro hbn
    rw [hreg, hv]
    simp [consumerClass, hb, hbn]

/-- Witness for C2: the spec's example — effective elements
`{button: {color:"red"}, "back__button": {padding:"4px"}}` make the registry
map `"back__button"` to the generated class of `button` followed by the
generated class of `back__button`. -/
theorem compound_key_class_composition_witness :
    "back__button" ∈ appearanceKeys ∧
    baseKeyOf "back__button" = some "button" ∧
    elementsEx2 "back__button" = some (.styles [("padding", "4px")]) ∧
    elementsEx2 "button" = some (.styles [("color", "red")]) ∧
    registryFromData (parseElements elementsEx2) "back__button" =
      some (genClassName "button" ++ " " ++ genClassName "back__button") :=
  ⟨by decide, by decide, rfl, rfl,
    (compound_key_class_composition elementsEx2 "back__button" "button"
      (.styles [("padding", "4px")]) (by decide) (by decide) rfl).1
      (.styles [("color", "red")]) rfl⟩

/-- C3 counterexample: recomputing first with `{button: {color:"red"}}` and
then with the empty effective map leaves `button` in the registry even though
the current effective map no longer contains it — the store merge at
lines 239-246 is additive, so the registry key set is not a subset of the
current effective map's keys. -/
theorem registry_retains_removed_key :
    storeUpdate (storeUpdate emptyRegistry elementsEx3a) elementsEx3b "button" =
      some (genClassName "button") ∧
    elementsEx3b "button" = none := ⟨rfl, rfl⟩

/-- A present registry entry after one store update came from the old registry
or from the new effective map. -/
theorem storeUpdate_isSome (old : Registry) (em : Elements) (q : String)
    (h : (storeUpdate old em q).isSome = true) :
    (old q).isSome = true ∨ (em q).isSome = true := by
  unfold storeUpdate at h
  cases hr : registryFromData (parseElements em) q with
  | none =>
    rw [hr] at h
    exact Or.inl h
  | some v =>
    right
    unfold parseElements at hr
    rw [registry_filterMap_lookup] at hr
    by_cases hq : q ∈ appearanceKeys
    · rw [if_pos hq] at hr
      cases hv : em q
      · rw [hv] at hr
        simp at hr
      · rfl
    · rw [if_neg hq] at hr
      simp at hr

/-- Registry entries after a fold of store updates trace back to the starting
registry or to some map in the list. -/
theorem foldl_storeUpdate_isSome (ems : List Elements) (r0 : Registry) (q : String)
    (h : ((ems.foldl storeUpdate r0) q).isSome = true) :
    (r0 q).isSome = true ∨ ∃ em ∈ ems, (em q).isSome = true := by
  induction ems generalizing r0 with
  | nil => exact Or.inl h
  | cons em ems ih =>
    rcases ih (storeUpdate r0 em) h with h1 | h2
    · rcases storeUpdate_isSome r0 em q h1 with ha | hb
      · exact Or.inl ha
      · exact Or.inr ⟨em, List.mem_cons_self em ems, hb⟩
    · obtain ⟨em2, hm, hs⟩ := h2
      exact Or.inr ⟨em2, List.mem_cons_of_mem em hm, hs⟩

/-- C3 amended: starting from the empty registry, after any sequence of
element-effect recomputations the registry's key set is a subset of the union
of the keys of all effective element maps seen so far — the store merge is
additive and never removes entries, so a key removed from the effective map
can remain registered. -/
theorem registry_keys_from_some_recomputation (ems : List Elements) (q : String)
    (h : ((ems.foldl storeUpdate emptyRegistry) q).isSome = true) :
    ∃ em ∈ ems, (em q).isSome = true := by
  rcases foldl_storeUpdate_isSome ems emptyRegistry q h with h1 | h2
  · simp [emptyRegistry] at h1
  · exact h2

/-- Witness for the amended C3: every registered key after one recomputation
with `{button: {color:"red"}}` is a key of some map seen so far. -/
theorem registry_keys_from_some_recomputation_witness :
    (([elementsEx3a].foldl storeUpdate emptyRegistry) "button").isSome = true ∧
    ∃ em ∈ [elementsEx3a], (em "button").isSome = true :=
  ⟨rfl, registry_keys_from_some_recomputation [elementsEx3a] "button" rfl⟩

end Novu
